import Mathlib

/-!
Shallow embedding of the ormantic repository (src/ormantic/models.py,
src/ormantic/fields.py) used to settle the frozen claims about its
specification.

Conventions of the embedding:
* Python values that flow through the ORM are modelled by the inductive
  type `Value` (None, bool, int, str, list, dict, model instance).
* Python exceptions are modelled by `PyErr`; a Python callable that can
  raise is embedded as a function into `PyResult α := Except PyErr α`.
* Python dicts keyed by strings are association lists `List (String × Value)`
  with first-match lookup; `setKey` mirrors `d[k] = v` (replace in place,
  else append), `removeKey` mirrors `d.pop(k)`.
* Recursive procedures whose Python termination argument is not structural
  are given an explicit fuel argument chosen large enough that, for the
  inputs the source can produce, the fuel is never exhausted; exhaustion is
  mapped to `PyErr.recursionError` (Python's own RecursionError channel).
-/

namespace Ormantic

/-- Python exceptions that the embedded code can raise.  `noMatch` and
`multipleMatches` model the two exception classes of `ormantic/exceptions.py`.
Modelled from the spec: `exceptions.py` itself is not among the provided
source files (only its import and raise sites are); the spec requires
"no match" and "multiple matches" to be distinct error kinds, which the
two distinct constructors realise. -/
inductive PyErr where
  | noMatch
  | multipleMatches
  | keyError (key : String)
  | attributeError (attr : String)
  | typeError (msg : String)
  | nameError (missing : String)
  | validationError (errs : List (String × String))
  | recursionError
deriving DecidableEq, Repr

/-- Result of running a piece of embedded Python: a value or a raised
exception. -/
abbrev PyResult (α : Type) := Except PyErr α

/-- Python runtime values handled by the ORM: `None`, booleans, ints,
strings, lists, dicts, and model instances.  A model instance
(`pydantic.BaseModel` subclass) is carried as the name of its primary-key
field (`Mapping.pk_name`, absent when the model declared no primary key)
together with its `__values__` dict. -/
inductive Value where
  | none
  | bool (b : Bool)
  | int (n : Int)
  | str (s : String)
  | arr (elems : List Value)
  | obj (entries : List (String × Value))
  | inst (pkName : Option String) (vals : List (String × Value))

/-- A Python dict key as used in `QuerySet.create`: the dict produced by
`table_dict` has `str` keys, while the `data.get(pk_column, -1)` lookup
uses a SQLAlchemy `Column` object as the key.  Two keys are equal exactly
when they are the same kind with the same components, mirroring that a
`Column` is never equal to any `str`. -/
inductive PyKey where
  | str (s : String)
  | col (table : String) (name : String)
deriving DecidableEq, Repr

/-- First-match association-list lookup (Python dict `d.get(k)`). -/
def lookupStr (d : List (String × Value)) (k : String) : Option Value :=
  match d with
  | [] => Option.none
  | (k', v) :: rest => if k' = k then some v else lookupStr rest k

/-- Generic first-match lookup for `PyKey`-keyed dicts. -/
def lookupKey (d : List (PyKey × Value)) (k : PyKey) : Option Value :=
  match d with
  | [] => Option.none
  | (k', v) :: rest => if k' = k then some v else lookupKey rest k

/-- Python `d[k] = v`: replace the value at `k` in place if present,
otherwise append the new binding at the end (dict insertion order). -/
def setKey (d : List (String × Value)) (k : String) (v : Value) :
    List (String × Value) :=
  match d with
  | [] => [(k, v)]
  | (k', v') :: rest =>
    if k' = k then (k, v) :: rest else (k', v') :: setKey rest k v

/-- Python `d.pop(k)` (the removal part): drop the first binding of `k`. -/
def removeKey (d : List (String × Value)) (k : String) :
    List (String × Value) :=
  match d with
  | [] => []
  | (k', v') :: rest =>
    if k' = k then rest else (k', v') :: removeKey rest k

/-- Python truthiness of a `Value` (`bool(v)`), as used by
`data.pop("__pk_only__", False)` feeding a boolean context. -/
def pyTruthy (v : Value) : Bool :=
  match v with
  | .none => false
  | .bool b => b
  | .int n => n != 0
  | .str s => s ≠ ""
  | .arr l => !l.isEmpty
  | .obj l => !l.isEmpty
  | .inst _ _ => true

/-- Effectful map over a list, stopping at the first raised exception
(the generic shape of a Python `for` loop building a list). -/
def pyMapM {α β : Type} (f : α → PyResult β) (l : List α) :
    PyResult (List β) :=
  match l with
  | [] => .ok []
  | a :: rest => do
    let b ← f a
    let bs ← pyMapM f rest
    .ok (b :: bs)

/-- Character-level worker for `pySplit`.  `fuel` is an upper bound on the
number of characters still to be consumed; each step consumes at least one
character, so starting it at the full length makes the `fuel = 0` case
unreachable for nonempty separators. -/
def pySplitChars (sep : List Char) : Nat → List Char → List Char →
    List (List Char)
  | _, [], cur => [cur.reverse]
  | 0, l, cur => [cur.reverse ++ l]
  | fuel + 1, c :: rest, cur =>
    if sep.isPrefixOf (c :: rest) then
      cur.reverse :: pySplitChars sep fuel (List.drop (sep.length - 1) rest) []
    else
      pySplitChars sep fuel rest (c :: cur)

/-- Python `s.split(sep)` for a nonempty separator: the maximal list of
substrings separated by non-overlapping occurrences of `sep`, scanned left
to right.  `"a__b".split("__") = ["a", "b"]`, `"in".split("__") = ["in"]`,
`"a__".split("__") = ["a", ""]`. -/
def pySplit (s sep : String) : List String :=
  (pySplitChars sep.toList s.toList.length s.toList []).map List.asString

/-- Column-level flags shared by every field factory of `fields.py`
(`ColumnFactory` class attributes `primary_key`, `allow_null`, `index`,
`unique`). -/
structure ColOpts where
  primaryKey : Bool
  allowNull : Bool
  index : Bool
  unique : Bool
deriving DecidableEq, Repr

/-- `ColOpts` with every flag off: the `ColumnFactory` defaults. -/
def defaultOpts : ColOpts := ⟨false, false, false, false⟩

/-- A field descriptor as synthesised by the factories of `fields.py`,
restricted to the field kinds the claims exercise (`Integer`, `String`,
`Boolean`, `JSON`, `ForeignKey`).  `integer` carries the `ge`/`le` bounds
(`minimum`/`maximum` kwargs); `stringF` carries `max_length` (required
positive) and optional `min_length`; `foreignKey` carries the referenced
model inline (its `Mapping.table_name` and `__fields__`), mirroring the
`to` attribute stored on the synthesised type.  Constraints not used by
any embedded operation (regex, strip_whitespace, curtail_length) are
omitted. -/
inductive FieldTy where
  | integer (ge le : Option Int) (opts : ColOpts)
  | stringF (maxLength : Nat) (minLength : Option Nat) (opts : ColOpts)
  | boolean (opts : ColOpts)
  | jsonF (opts : ColOpts)
  | foreignKey (toTableName : String)
      (toFields : List (String × Option Value × FieldTy)) (allowNull : Bool)

/-- One entry of a model's `__fields__`: field name, pydantic default
(`Option.none` when the field is required, i.e. declared without `= ...`),
and its field type. -/
abbrev FieldSpec := String × Option Value × FieldTy

/-- The name of a `FieldSpec`. -/
def fname (f : FieldSpec) : String := f.1

/-- The pydantic default of a `FieldSpec`. -/
def fdefault (f : FieldSpec) : Option Value := f.2.1

/-- The field type of a `FieldSpec`. -/
def fty (f : FieldSpec) : FieldTy := f.2.2

/-- A declared model class: its `Mapping.table_name` and its ordered
pydantic `__fields__`. -/
structure ModelCls where
  tableName : String
  fields : List FieldSpec

/-- The `primary_key` class attribute of a field type (`ForeignKey`
types never set it, so they inherit `ColumnFactory`'s `False`). -/
def FieldTy.primaryKey : FieldTy → Bool
  | .integer _ _ o => o.primaryKey
  | .stringF _ _ o => o.primaryKey
  | .boolean o => o.primaryKey
  | .jsonF o => o.primaryKey
  | .foreignKey _ _ _ => false

/-- The `allow_null` class attribute of a field type. -/
def FieldTy.allowNull : FieldTy → Bool
  | .integer _ _ o => o.allowNull
  | .stringF _ _ o => o.allowNull
  | .boolean o => o.allowNull
  | .jsonF o => o.allowNull
  | .foreignKey _ _ n => n

/-- The `index` class attribute of a field type. -/
def FieldTy.indexFlag : FieldTy → Bool
  | .integer _ _ o => o.index
  | .stringF _ _ o => o.index
  | .boolean o => o.index
  | .jsonF o => o.index
  | .foreignKey _ _ _ => false

/-- The `unique` class attribute of a field type. -/
def FieldTy.uniqueFlag : FieldTy → Bool
  | .integer _ _ o => o.unique
  | .stringF _ _ o => o.unique
  | .boolean o => o.unique
  | .jsonF o => o.unique
  | .foreignKey _ _ _ => false

/-- The `to` attribute of a field type: the referenced model class for a
`ForeignKey` field, absent (Python `AttributeError` on access) otherwise. -/
def FieldTy.to : FieldTy → Option ModelCls
  | .foreignKey tn tf _ => some ⟨tn, tf⟩
  | _ => Option.none

/-- A SQLAlchemy column as produced by `ColumnFactory.get_column`:
`Column(name, type, primary_key=..., nullable=allow_null and not
primary_key, index=..., unique=...)`.  The SQL type object is not used by
any embedded operation and is omitted. -/
structure ColumnDef where
  name : String
  primaryKey : Bool
  nullable : Bool
  index : Bool
  unique : Bool
deriving DecidableEq, Repr

/-- `ColumnFactory.get_column(name)` for a field type. -/
def getColumn (name : String) (t : FieldTy) : ColumnDef :=
  ⟨name, t.primaryKey, t.allowNull && !t.primaryKey, t.indexFlag,
    t.uniqueFlag⟩

/-- A SQLAlchemy `Table`: name plus columns in declaration order. -/
structure TableDef where
  name : String
  columns : List ColumnDef
deriving DecidableEq, Repr

/-- What `MetaModel.__new__` stores on the model's `Mapping` class:
`pk_name` (absent when no field was flagged primary-key — the attribute is
simply never assigned) and the synthesised `table`. -/
structure MappingInfo where
  pkNameOpt : Option String
  table : TableDef
deriving DecidableEq, Repr

/-- The body of `MetaModel.__new__` for a class that has a `Mapping`
attribute: iterate `__fields__` in order, record `Mapping.pk_name = name`
for every field whose type has `primary_key` set (so the last such field
wins), collect `get_column(name)` for every field, and build the table.
The body contains no raise site, hence the result is always `ok`. -/
def metaModelNew (tableName : String) (fields : List FieldSpec) :
    PyResult MappingInfo :=
  let pkName := fields.foldl
    (fun acc f => if (fty f).primaryKey then some (fname f) else acc)
    Option.none
  let columns := fields.map (fun f => getColumn (fname f) (fty f))
  .ok ⟨pkName, ⟨tableName, columns⟩⟩

/-- The `Mapping` data of a declared class (total accessor: by the time a
model class exists, `MetaModel.__new__` has run). -/
def mappingOf (cls : ModelCls) : MappingInfo :=
  match metaModelNew cls.tableName cls.fields with
  | .ok m => m
  | .error _ => ⟨Option.none, ⟨cls.tableName, []⟩⟩

/-- The `pk_name` stored on `Mapping` (absent when no primary key). -/
def pkNameOf (cls : ModelCls) : Option String := (mappingOf cls).pkNameOpt

/-- The double-quote character (written via its code point to keep the
parser source free of quote-in-quote literals). -/
def quoteChar : Char := Char.ofNat 34

/-- Left brace character. -/
def lcurly : Char := Char.ofNat 123

/-- Right brace character. -/
def rcurly : Char := Char.ofNat 125

/-- Drop leading JSON whitespace. -/
def skipWs (cs : List Char) : List Char :=
  cs.dropWhile (fun c => c = ' ' ∨ c = '\t' ∨ c = '\n' ∨ c = '\r')

/-- Parse a JSON string body up to the closing quote.  String escapes are
not modelled (no claim exercises them); a backslash is treated as an
ordinary character. -/
def jparseStr : List Char → Except String (String × List Char)
  | [] => .error "unterminated string"
  | c :: rest =>
    if c = quoteChar then .ok ("", rest)
    else
      match jparseStr rest with
      | .ok (s, rem) => .ok (⟨c :: s.toList⟩, rem)
      | .error e => .error e

/-- Digits-to-Nat accumulator. -/
def digitsToNat (ds : List Char) : Nat :=
  ds.foldl (fun acc c => acc * 10 + (c.toNat - 48)) 0

/-- Recursive JSON value parser.  `fuel` bounds the recursion: every
recursive call decreases it, and `jsonLoads` supplies enough for any
input, so the `fuel = 0` branch is unreachable there.  Comma-separated
tails of arrays and objects are parsed by re-entering the parser with the
opening bracket re-attached, which keeps the whole parser a single
structurally recursive function. -/
def jparseVal : Nat → List Char → Except String (Value × List Char)
  | 0, _ => .error "out of fuel"
  | fuel + 1, cs =>
    match skipWs cs with
    | [] => .error "expecting value"
    | c :: rest =>
      if c = quoteChar then
        match jparseStr rest with
        | .ok (s, rem) => .ok (.str s, rem)
        | .error e => .error e
      else if c = '[' then
        match skipWs rest with
        | ']' :: rem => .ok (.arr [], rem)
        | body =>
          match jparseVal fuel body with
          | .error e => .error e
          | .ok (v, rem) =>
            match skipWs rem with
            | ']' :: rem2 => .ok (.arr [v], rem2)
            | ',' :: rem2 =>
              match jparseVal fuel ('[' :: rem2) with
              | .ok (.arr vs, rem3) => .ok (.arr (v :: vs), rem3)
              | .ok _ => .error "impossible array tail"
              | .error e => .error e
            | _ => .error "expecting , or ] in array"
      else if c = lcurly then
        match skipWs rest with
        | body =>
          if body.head? = some rcurly then .ok (.obj [], body.tail)
          else if body.head? = some quoteChar then
            match jparseStr body.tail with
            | .error e => .error e
            | .ok (k, rem) =>
              match skipWs rem with
              | ':' :: rem2 =>
                match jparseVal fuel rem2 with
                | .error e => .error e
                | .ok (v, rem3) =>
                  match skipWs rem3 with
                  | ',' :: rem4 =>
                    match jparseVal fuel (lcurly :: rem4) with
                    | .ok (.obj kvs, rem5) => .ok (.obj ((k, v) :: kvs), rem5)
                    | .ok _ => .error "impossible object tail"
                    | .error e => .error e
                  | d :: rem4 =>
                    if d = rcurly then .ok (.obj [(k, v)], rem4)
                    else .error "expecting , or end of object"
                  | [] => .error "unterminated object"
              | _ => .error "expecting : in object"
          else .error "expecting key or end of object"
      else if c = 'n' ∧ rest.take 3 = ['u', 'l', 'l'] then
        .ok (.none, rest.drop 3)
      else if c = 't' ∧ rest.take 3 = ['r', 'u', 'e'] then
        .ok (.bool true, rest.drop 3)
      else if c = 'f' ∧ rest.take 4 = ['a', 'l', 's', 'e'] then
        .ok (.bool false, rest.drop 4)
      else if c = '-' ∨ c.isDigit then
        let sign : Int := if c = '-' then -1 else 1
        let digits := if c = '-' then rest.takeWhile Char.isDigit
          else c :: rest.takeWhile Char.isDigit
        let rem := if c = '-' then rest.dropWhile Char.isDigit
          else rest.dropWhile Char.isDigit
        if digits.isEmpty then .error "bad number"
        else .ok (.int (sign * Int.ofNat (digitsToNat digits)), rem)
      else .error "unexpected character"

/-- Modelled from the spec: `json.loads` of the Python standard library
(an external collaborator of `fields.py`), restricted to the JSON
fragment without floats and string escapes, which covers every value the
claims exercise.  Decoding succeeds only if the whole input is one JSON
value; failure is Python's `ValueError` channel. -/
def jsonLoads (s : String) : Except String Value :=
  match jparseVal (3 * s.length + 9) s.toList with
  | .error e => .error e
  | .ok (v, rem) =>
    if (skipWs rem).isEmpty then .ok v else .error "extra data"

/-- `Json.validate` from `fields.py`: a string is decoded with
`json.loads`, anything else is returned as-is.  The `except ValueError`
handler executes `raise errors.JsonError()`, but the name `errors` is
never imported in `fields.py`, so evaluating the handler raises
`NameError('errors')` instead of any validation error. -/
def jsonValidate (v : Value) : PyResult Value :=
  match v with
  | .str s =>
    match jsonLoads s with
    | .ok decoded => .ok decoded
    | .error _ => .error (.nameError "errors")
  | other => .ok other

/-- Modelled from the spec: the integer constraint checker supplied by the
external validation engine (`pydantic.ConstrainedInt` with the `ge`/`le`
bounds that `fields.Integer` installs).  Ints are bound-checked, bools
coerce as Python ints, decimal strings are parsed; anything else is a
per-field validation error. -/
def intValidator (ge le : Option Int) (v : Value) : Except String Value :=
  let check : Int → Except String Value := fun n =>
    match ge with
    | some g =>
      if n < g then .error "value is less than the minimum" else
        match le with
        | some l => if l < n then .error "value is greater than the maximum"
            else .ok (.int n)
        | Option.none => .ok (.int n)
    | Option.none =>
      match le with
      | some l => if l < n then .error "value is greater than the maximum"
          else .ok (.int n)
      | Option.none => .ok (.int n)
  match v with
  | .int n => check n
  | .bool b => check (if b then 1 else 0)
  | .str s =>
    match s.toInt? with
    | some n => check n
    | Option.none => .error "value is not a valid integer"
  | _ => .error "value is not a valid integer"

/-- Modelled from the spec: the string constraint checker supplied by the
external validation engine (`pydantic.ConstrainedStr` with the
`max_length`/`min_length` that `fields.String` installs).  Numbers coerce
via `str(v)`; other kinds are a per-field validation error. -/
def strValidator (maxLength : Nat) (minLength : Option Nat) (v : Value) :
    Except String Value :=
  let check : String → Except String Value := fun s =>
    if maxLength < s.length then .error "value has too many characters"
    else
      match minLength with
      | some m => if s.length < m then .error "value has too few characters"
          else .ok (.str s)
      | Option.none => .ok (.str s)
  match v with
  | .str s => check s
  | .int n => check (toString n)
  | .bool b => check (if b then "True" else "False")
  | _ => .error "str type expected"

/-- Modelled from the spec: the boolean checker supplied by the external
validation engine for `fields.Boolean`.  Bools pass through, ints coerce
by non-zeroness; other kinds are a per-field validation error. -/
def boolValidator (v : Value) : Except String Value :=
  match v with
  | .bool b => .ok (.bool b)
  | .int n => .ok (.bool (n != 0))
  | _ => .error "value could not be parsed to a boolean"

/-- Dispatch a raw value through the validator chain of one field type.
The outer `PyResult` carries exceptions the validation engine does not
catch (the `NameError` escaping `Json.validate`); the inner `Except` is
the caught per-field validation error. -/
def validateField (t : FieldTy) (v : Value) : PyResult (Except String Value) :=
  match t with
  | .integer ge le _ => .ok (intValidator ge le v)
  | .stringF maxL minL _ => .ok (strValidator maxL minL v)
  | .boolean _ => .ok (boolValidator v)
  | .jsonF _ =>
    match jsonValidate v with
    | .ok v' => .ok (.ok v')
    | .error e => .error e
  | .foreignKey _ _ _ => .ok (.ok v)

/-- Whether the validation engine lets `None` through unvalidated for this
field (pydantic's `allow_none`, which holds when the declared default is
`None`). -/
def allowsNone (f : FieldSpec) : Bool :=
  match fdefault f with
  | some .none => true
  | _ => false

/-- Python `v is None`. -/
def isNoneValue : Value → Bool
  | .none => true
  | _ => false

/-- Field-by-field loop of the validation engine: walk the declared fields
in order, apply defaults for absent keys, record "field required" for
absent required keys, and run the field validators otherwise.  Extra keys
of `data` that name no field are ignored. -/
def validateFieldsGo (data : List (String × Value)) :
    List FieldSpec → List (String × Value) → List (String × String) →
    PyResult (List (String × Value) × List (String × String))
  | [], vals, errs => .ok (vals, errs)
  | f :: rest, vals, errs =>
    match lookupStr data (fname f) with
    | Option.none =>
      match fdefault f with
      | some d => validateFieldsGo data rest (vals ++ [(fname f, d)]) errs
      | Option.none =>
        validateFieldsGo data rest vals (errs ++ [(fname f, "field required")])
    | some v =>
      if isNoneValue v then
        if allowsNone f then
          validateFieldsGo data rest (vals ++ [(fname f, v)]) errs
        else
          validateFieldsGo data rest vals
            (errs ++ [(fname f, "none is not an allowed value")])
      else
        match validateField (fty f) v with
        | .error e => .error e
        | .ok (.error msg) =>
          validateFieldsGo data rest vals (errs ++ [(fname f, msg)])
        | .ok (.ok v') =>
          validateFieldsGo data rest (vals ++ [(fname f, v')]) errs

/-- Modelled from the spec: `pydantic.validate_model(model, data,
raise_exc)`, the external validation engine's entry point used by
`Model.__init__`.  It validates `data` against the model's field
descriptors and returns the validated values together with the per-field
error list; when `raise_exc` is set and errors were collected it raises
them as one validation error instead. -/
def validateModel (cls : ModelCls) (data : List (String × Value))
    (raiseExc : Bool) :
    PyResult (List (String × Value) × List (String × String)) :=
  match validateFieldsGo data cls.fields [] [] with
  | .error e => .error e
  | .ok (vals, errs) =>
    if raiseExc ∧ ¬errs.isEmpty then .error (.validationError errs)
    else .ok (vals, errs)

/-- `Model.__init__`: rename a `pk=` kwarg to the primary-key field name
(`data[self.Mapping.pk_name] = data.pop("pk")`), pop the internal
`__pk_only__` flag (default `False`), then run the validation engine with
`raise_exc = not pk_only` and store the resulting values as the
instance's `__values__`. -/
def modelInit (cls : ModelCls) (data : List (String × Value)) :
    PyResult Value := do
  let data1 ←
    match lookupStr data "pk" with
    | some v =>
      match pkNameOf cls with
      | some pkn => Except.ok (setKey (removeKey data "pk") pkn v)
      | Option.none => Except.error (PyErr.attributeError "pk_name")
    | Option.none => Except.ok data
  let pkOnly := ((lookupStr data1 "__pk_only__").map pyTruthy).getD false
  let data2 := removeKey data1 "__pk_only__"
  let r ← validateModel cls data2 (!pkOnly)
  .ok (.inst (pkNameOf cls) r.1)

/-- Attribute read on a model instance (pydantic exposes `__values__`
entries as attributes; a missing name is an `AttributeError`). -/
def instGetattr (v : Value) (name : String) : PyResult Value :=
  match v with
  | .inst _ vals =>
    match lookupStr vals name with
    | some x => .ok x
    | Option.none => .error (.attributeError name)
  | _ => .error (.attributeError name)

/-- The `Model.pk` property: `getattr(self, self.Mapping.pk_name)`;
accessing it on a model whose `Mapping` never got a `pk_name` is an
`AttributeError`. -/
def instPk (v : Value) : PyResult Value :=
  match v with
  | .inst (some pkn) vals => instGetattr (.inst (some pkn) vals) pkn
  | _ => .error (.attributeError "pk_name")

/-- `Model.__setattr__`: the name `pk` is routed to the primary-key field
(`setattr(self, self.Mapping.pk_name, value)`); any other name updates
that entry of `__values__` (the plain pydantic setattr path). -/
def instSetattr (v : Value) (name : String) (x : Value) : PyResult Value :=
  match v with
  | .inst pkn vals =>
    if name = "pk" then
      match pkn with
      | some p => .ok (.inst pkn (setKey vals p x))
      | Option.none => .error (.attributeError "pk_name")
    else .ok (.inst pkn (setKey vals name x))
  | _ => .error (.typeError "setattr on non-instance")

/-- `_get_td_value` from `Model.table_dict`: model instances are replaced
by their primary-key value, containers are rebuilt recursively, scalars
pass through.  `fuel` bounds the recursion depth; `tableDict` supplies
CPython's default recursion limit of 1000, so fuel exhaustion coincides
with where Python itself would raise `RecursionError`. -/
def tdValueF : Nat → Value → PyResult Value
  | 0, _ => .error .recursionError
  | _ + 1, .inst pkn vals => instPk (.inst pkn vals)
  | fuel + 1, .arr vs => (pyMapM (tdValueF fuel) vs).map .arr
  | fuel + 1, .obj kvs =>
    (pyMapM (fun kv => (tdValueF fuel kv.2).map (fun v' => (kv.1, v'))) kvs).map
      .obj
  | _ + 1, v => .ok v

/-- `Model.table_dict`: serialize `__values__` to column values; keys are
the field names (the pydantic `get_key` factory with `by_alias=False`
returns the key unchanged), so the resulting dict is string-keyed. -/
def tableDict (v : Value) : PyResult (List (PyKey × Value)) :=
  match v with
  | .inst _ vals =>
    pyMapM
      (fun kv => (tdValueF 1000 kv.2).map (fun v' => (PyKey.str kv.1, v')))
      vals
  | _ => .error (.typeError "table_dict on non-instance")

/-- The `FILTER_OPERATORS` table of `models.py`: operator suffix to
SQLAlchemy `ColumnElement` method name. -/
def FILTER_OPERATORS : List (String × String) :=
  [("any", "any_"), ("exact", "__eq__"), ("iexact", "ilike"),
   ("contains", "like"), ("icontains", "ilike"), ("in", "in_"),
   ("gt", "__gt__"), ("gte", "__ge__"), ("lt", "__lt__"), ("lte", "__le__")]

/-- `FILTER_OPERATORS[op]` as a lookup. -/
def lookupOp (op : String) : Option String :=
  (FILTER_OPERATORS.find? (fun p => p.1 = op)).map (fun p => p.2)

/-- `parts[-1] in FILTER_OPERATORS`. -/
def isOpName (s : String) : Bool := (lookupOp s).isSome

/-- The branch structure of `QuerySet.filter` on one keyword, expressed on
the `__`-split segment list.  The source first tests `"__" in key` (true
exactly when the split has at least two segments) and, in that branch,
consults `parts[-1]`/`parts[-2]`/`parts[:-2]`; a separator-free key goes
to the `else` arm (`op = "exact"`, the key itself is the column).  Both
arms coincide with one match on the reversed segment list. -/
def splitKeyParts (parts : List String) : String × String × List String :=
  match parts.reverse with
  | last :: sndLast :: restRev =>
    if isOpName last then (last, sndLast, restRev.reverse)
    else ("exact", last, (sndLast :: restRev).reverse)
  | [only] => ("exact", only, [])
  | [] => ("exact", "", [])

/-- Parse one filter keyword into `(op, field_name, related_parts)` as
`QuerySet.filter` does: split on `__` and dispatch on the segments. -/
def parseKey (key : String) : String × String × List String :=
  splitKeyParts (pySplit key "__")

/-- Python `"%" + value + "%"`: wraps a string, raises `TypeError` for any
other operand. -/
def wrapPercent (v : Value) : PyResult Value :=
  match v with
  | .str s => .ok (.str ("%" ++ s ++ "%"))
  | _ => .error (.typeError "can only concatenate str to str")

/-- The value normalisation of `QuerySet.filter`: `contains`/`icontains`
first wrap the value in `%` wildcards, then a model-instance value is
replaced by its primary key. -/
def transformValue (op : String) (v : Value) : PyResult Value := do
  let v1 ← if op = "contains" ∨ op = "icontains" then wrapPercent v else .ok v
  match v1 with
  | .inst pkn vals => instPk (.inst pkn vals)
  | other => .ok other

/-- `cls.__fields__[name]` lookup. -/
def findField (cls : ModelCls) (name : String) : Option FieldSpec :=
  cls.fields.find? (fun f => fname f = name)

/-- Walk `model_cls = model_cls.__fields__[part].type_.to` along a
relation path: unknown segment names raise `KeyError`, segments naming a
non-relation field raise `AttributeError` (`type_` has no `to`). -/
def walkRelated (m : ModelCls) : List String → PyResult ModelCls
  | [] => .ok m
  | part :: rest =>
    match findField m part with
    | Option.none => .error (.keyError part)
    | some f =>
      match (fty f).to with
      | some sub => walkRelated sub rest
      | Option.none => .error (.attributeError "to")

/-- A SQL predicate `getattr(column, op_attr)(value)`: owning table,
column name, `ColumnElement` method, argument. -/
structure Clause where
  table : String
  column : String
  opAttr : String
  value : Value

/-- Resolve one `key=value` filter kwarg to its predicate and the implied
`related_parts` join path. -/
def clauseFor (rootCls : ModelCls) (key : String) (value : Value) :
    PyResult (Clause × List String) := do
  let parsed := parseKey key
  let op := parsed.1
  let fieldName := parsed.2.1
  let relatedParts := parsed.2.2
  let modelCls ← walkRelated rootCls relatedParts
  let tbl := (mappingOf modelCls).table
  let col ← match tbl.columns.find? (fun c => c.name = fieldName) with
    | some c => Except.ok c
    | Option.none => Except.error (PyErr.keyError fieldName)
  let opAttr ← match lookupOp op with
    | some a => Except.ok a
    | Option.none => Except.error (PyErr.keyError op)
  let v' ← transformValue op value
  .ok (⟨tbl.name, col.name, opAttr, v'⟩, relatedParts)

/-- A query builder value: the target model plus the two accumulated
lists (`filter_clauses` and `_select_related`). -/
structure QuerySet where
  modelCls : ModelCls
  filterClauses : List Clause
  selRelated : List String

/-- `Model.objects` (the `QuerySet.__get__` descriptor): a fresh builder
for the owner class with both accumulators empty. -/
def objectsOf (cls : ModelCls) : QuerySet := ⟨cls, [], []⟩

/-- The kwargs loop of `QuerySet.filter`, threading the (shared) clause
list and the (copied) select-related list. -/
def qsFilterGo (cls : ModelCls) :
    List (String × Value) → List Clause → List String →
    PyResult (List Clause × List String)
  | [], clauses, selrel => .ok (clauses, selrel)
  | (key, value) :: rest, clauses, selrel => do
    let parsed := parseKey key
    let relatedParts := parsed.2.2
    let selrel' :=
      if relatedParts.isEmpty then selrel
      else
        let relatedStr := String.intercalate "__" relatedParts
        if selrel.contains relatedStr then selrel else selrel ++ [relatedStr]
    let r ← clauseFor cls key value
    qsFilterGo cls rest (clauses ++ [r.1]) selrel'

/-- `QuerySet.filter(**kwargs)`.  The source binds
`filter_clauses = self.filter_clauses` (the same list object, appended to
in place) but `select_related = list(self._select_related)` (a copy), and
returns `self.__class__(...)` over the final lists.  The embedding
returns the pair `(self after the call, returned builder)`: the receiver
keeps its own join-path list but its clause list is the shared, appended
one. -/
def qsFilter (qs : QuerySet) (kwargs : List (String × Value)) :
    PyResult (QuerySet × QuerySet) :=
  match qsFilterGo qs.modelCls kwargs qs.filterClauses qs.selRelated with
  | .error e => .error e
  | .ok (clauses, selrel) =>
    .ok (⟨qs.modelCls, clauses, qs.selRelated⟩, ⟨qs.modelCls, clauses, selrel⟩)

/-- The WHERE payload: a single clause is passed through unwrapped, two or
more are combined with `sqlalchemy.sql.and_`. -/
inductive WhereClause where
  | single (c : Clause)
  | conj (cs : List Clause)

/-- A compiled SELECT expression: selected columns or functions, the
ordered join sequence (`select_from`, one entry per executed join), the
optional WHERE payload, and the optional row limit. -/
structure SelectExpr where
  selectCols : List String
  fromTables : List String
  whereClause : Option WhereClause
  limit : Option Nat

/-- `expr.limit(n)`. -/
def exprLimit (e : SelectExpr) (n : Nat) : SelectExpr :=
  ⟨e.selectCols, e.fromTables, e.whereClause, some n⟩

/-- The inner loop of `build_select_expression` for one select-related
item: walk each `__`-segment, resolving the next model class and joining
its table. -/
def buildItemGo (cur : ModelCls) :
    List String → List String → PyResult (ModelCls × List String)
  | [], tables => .ok (cur, tables)
  | part :: rest, tables =>
    match findField cur part with
    | Option.none => .error (.keyError part)
    | some f =>
      match (fty f).to with
      | some sub =>
        buildItemGo sub rest (tables ++ [(mappingOf sub).table.name])
      | Option.none => .error (.attributeError "to")

/-- The outer loop of `build_select_expression`: each select-related item
restarts the walk at `self.model_cls` and appends its joins to the
accumulated table list. -/
def buildTablesGo (root : ModelCls) :
    List String → List String → PyResult (List String)
  | [], tables => .ok tables
  | item :: rest, tables => do
    let r ← buildItemGo root (pySplit item "__") tables
    buildTablesGo root rest r.2

/-- `QuerySet.build_select_expression(functions)`: compute the joined
table sequence from `_select_related`, select `functions or tables`
(Python `or`: a missing or empty `functions` falls back to the tables),
and attach the accumulated predicates (single clause unwrapped, several
joined by AND). -/
def buildSelectExpr (qs : QuerySet) (functions : Option (List String)) :
    PyResult SelectExpr := do
  let tables ← buildTablesGo qs.modelCls qs.selRelated
    [(mappingOf qs.modelCls).table.name]
  let cols := match functions with
    | some fs => if fs.isEmpty then tables else fs
    | Option.none => tables
  let whereC := match qs.filterClauses with
    | [] => Option.none
    | [c] => some (.single c)
    | cs => some (.conj cs)
  .ok ⟨cols, tables, whereC, Option.none⟩

/-- The table sequence a single relation path contributes, walked on its
own: the per-path specification side of the join construction. -/
def pathTables (m : ModelCls) : List String → PyResult (List String)
  | [] => .ok []
  | part :: rest =>
    match findField m part with
    | Option.none => .error (.keyError part)
    | some f =>
      match (fty f).to with
      | some sub => do
        let tail ← pathTables sub rest
        .ok ((mappingOf sub).table.name :: tail)
      | Option.none => .error (.attributeError "to")

/-- A fetched database row: a mapping from (table name, column name) to
the value, the shape a joined row has (`row[column]` indexes by the
column object, which knows its table). -/
abbrev Row := List ((String × String) × Value)

/-- `row[column]`. -/
def lookupRow (row : Row) (k : String × String) : Option Value :=
  (row.find? (fun p => p.1 = k)).map (fun p => p.2)

/-- The column loop of `Model.from_row`: for every table column not
already populated by a related-model materialisation, pull the raw value
from the row; foreign-key columns are wrapped as
`col_type.to(pk=value, __pk_only__=True)` stub instances. -/
def fromRowColsGo (cls : ModelCls) (row : Row) :
    List ColumnDef → List (String × Value) →
    PyResult (List (String × Value))
  | [], item => .ok item
  | col :: rest, item =>
    if (lookupStr item col.name).isSome then fromRowColsGo cls row rest item
    else
      match findField cls col.name with
      | Option.none => .error (.keyError col.name)
      | some f =>
        match lookupRow row ((mappingOf cls).table.name, col.name) with
        | Option.none => .error (.keyError col.name)
        | some v =>
          match fty f with
          | .foreignKey tn tf _ => do
            let stub ← modelInit ⟨tn, tf⟩
              [("pk", v), ("__pk_only__", .bool true)]
            fromRowColsGo cls row rest (setKey item col.name stub)
          | _ => fromRowColsGo cls row rest (setKey item col.name v)

/-- `Model.from_row` on pre-split relation paths.  A path with one
segment materialises the immediate relation with no nested paths; a
longer path passes its tail down as the nested relation's own path (the
source splits `related.split("__", 1)` and re-splits the remainder on the
recursive call, which is the same decomposition).  After the related
loop, remaining columns are pulled and the instance is built by
`cls(**item)` with validation enforced.  `fuel` strictly decreases on
every call; `fromRow` supplies enough for its argument. -/
def fromRowGo : Nat → ModelCls → Row → List (List String) →
    List (String × Value) → PyResult Value
  | 0, _, _, _, _ => .error .recursionError
  | _ + 1, cls, row, [], item => do
    let item' ← fromRowColsGo cls row (mappingOf cls).table.columns item
    modelInit cls item'
  | fuel + 1, cls, row, path :: rest, item =>
    match path with
    | [] => .error (.keyError "")
    | [single] =>
      match findField cls single with
      | Option.none => .error (.keyError single)
      | some f =>
        match (fty f).to with
        | some sub => do
          let child ← fromRowGo fuel sub row [] []
          fromRowGo fuel cls row rest (setKey item single child)
        | Option.none => .error (.attributeError "to")
    | first :: restPath =>
      match findField cls first with
      | Option.none => .error (.keyError first)
      | some f =>
        match (fty f).to with
        | some sub => do
          let child ← fromRowGo fuel sub row [restPath] []
          fromRowGo fuel cls row rest (setKey item first child)
        | Option.none => .error (.attributeError "to")

/-- Fuel bound for `fromRowGo`: strictly larger than the number of calls
the path list can cause. -/
def pathsFuel (paths : List (List String)) : Nat :=
  paths.foldl (fun a p => a + 2 * p.length + 2) 1

/-- `Model.from_row(row, select_related)`. -/
def fromRow (cls : ModelCls) (row : Row) (selectRelated : List String) :
    PyResult Value :=
  let paths := selectRelated.map (fun s => pySplit s "__")
  fromRowGo (pathsFuel paths) cls row paths []

/-- `QuerySet.get()` (the kwargs-free path): build the SELECT, execute it
with `.limit(2)` through the external executor `fetchAll`, then raise
`NoMatch` on an empty result, `MultipleMatches` on more than one row, and
materialise the single row otherwise. -/
def qsGet (qs : QuerySet) (fetchAll : SelectExpr → List Row) :
    PyResult Value :=
  match buildSelectExpr qs Option.none with
  | .error e => .error e
  | .ok expr =>
    match fetchAll (exprLimit expr 2) with
    | [] => .error .noMatch
    | r :: rest =>
      if rest.isEmpty then fromRow qs.modelCls r qs.selRelated
      else .error .multipleMatches

/-- `QuerySet.get(**kwargs)`: non-empty kwargs first filter, then
delegate to the kwargs-free path on the new builder. -/
def qsGetK (qs : QuerySet) (kwargs : List (String × Value))
    (fetchAll : SelectExpr → List Row) : PyResult Value :=
  if kwargs.isEmpty then qsGet qs fetchAll
  else
    match qsFilter qs kwargs with
    | .error e => .error e
    | .ok r => qsGet r.2 fetchAll

/-- Remove a binding from a `PyKey`-keyed dict (`data.pop(pk_column)`). -/
def removeKeyP (d : List (PyKey × Value)) (k : PyKey) :
    List (PyKey × Value) :=
  match d with
  | [] => []
  | (k', v') :: rest =>
    if k' = k then rest else (k', v') :: removeKeyP rest k

/-- `QuerySet.create(**kwargs)`: validate a fresh instance, serialize it
with `table_dict`, run the `# pop id if None` guard — which looks up the
SQLAlchemy `Column` object `pk_column` in the string-keyed dict via
`data.get(pk_column, -1)` and pops only when that yields `None` — then
execute the INSERT (external executor outcome `execResult`) and, when the
store returned an identifier, assign it onto the instance's primary key.
Returns the executed INSERT's value set together with the instance. -/
def qsCreate (qs : QuerySet) (kwargs : List (String × Value))
    (execResult : Option Value) :
    PyResult (List (PyKey × Value) × Value) := do
  let inst ← modelInit qs.modelCls kwargs
  let data ← tableDict inst
  let pkn ← match pkNameOf qs.modelCls with
    | some p => Except.ok p
    | Option.none => Except.error (PyErr.attributeError "pk_name")
  let pkColumn := PyKey.col (mappingOf qs.modelCls).table.name pkn
  let data1 := match lookupKey data pkColumn with
    | some .none => removeKeyP data pkColumn
    | _ => data
  let inst1 ← match execResult with
    | some r => instSetattr inst "pk" r
    | Option.none => Except.ok inst
  .ok (data1, inst1)

/-- Python's `None`, the return value of `insert_many`. -/
inductive PyNone where
  | none
deriving DecidableEq, Repr

/-- One serialized row as handed to `execute_many`. -/
abbrev TableRow := List (PyKey × Value)

/-- The row loop of `QuerySet.insert_many`: serialize each row, flush the
accumulated batch through `execute_many` exactly when it reaches
`batch_size`, and flush any non-empty remainder after the loop.  The
first component of the result is the trace of `execute_many` calls (one
entry per physical batch operation); the second is the function's
(`None`) return value. -/
def insGo (batchSize : Nat) :
    List Value → List TableRow → List (List TableRow) →
    PyResult (List (List TableRow) × PyNone)
  | [], values, trace =>
    .ok (if values.isEmpty then trace else trace ++ [values], .none)
  | r :: rest, values, trace => do
    let d ← tableDict r
    let values' := values ++ [d]
    if values'.length = batchSize then
      insGo batchSize rest [] (trace ++ [values'])
    else insGo batchSize rest values' trace

/-- `QuerySet.insert_many(rows, batch_size)`. -/
def insertMany (rows : List Value) (batchSize : Nat) :
    PyResult (List (List TableRow) × PyNone) :=
  insGo batchSize rows [] []

/-! ### Concrete model fixtures (the shapes used by the repository's tests) -/

/-- `id: orm.Integer(primary_key=True) = None`. -/
def idPkField : FieldSpec :=
  ("id", some Value.none,
    .integer Option.none Option.none ⟨true, false, false, false⟩)

/-- The `User` model of the tests: integer primary key `id` defaulting to
`None` and a required `name: orm.String(max_length=100)`. -/
def userCls : ModelCls :=
  ⟨"users", [idPkField,
    ("name", Option.none, .stringF 100 Option.none defaultOpts)]⟩

/-- A model with a JSON column. -/
def jsonCls : ModelCls :=
  ⟨"js", [idPkField, ("payload", Option.none, .jsonF defaultOpts)]⟩

/-- Fields of two leaf models and a middle model with two outgoing
foreign keys, used to exercise join paths that share a prefix. -/
def yFields : List FieldSpec := [idPkField]

/-- Fields of the second leaf model. -/
def zFields : List FieldSpec := [idPkField]

/-- Fields of the middle model `X` (table `tx`): primary key plus foreign
keys `y` and `z` to the two leaves. -/
def xFields : List FieldSpec :=
  [idPkField, ("y", Option.none, .foreignKey "ty" yFields false),
   ("z", Option.none, .foreignKey "tz" zFields false)]

/-- Root model `A` (table `ta`) with a foreign key `x` to `X`. -/
def aCls : ModelCls :=
  ⟨"ta", [idPkField, ("x", Option.none, .foreignKey "tx" xFields false)]⟩

/-- A builder over `A` whose join paths `x__y` and `x__z` share the
prefix `x`. -/
def qsShared : QuerySet := ⟨aCls, [], ["x__y", "x__z"]⟩

/-- A row of the `users` table. -/
def userRowTom : Row :=
  [(("users", "id"), .int 1), (("users", "name"), .str "Tom")]

/-- Two fields both flagged primary-key. -/
def twoPkFields : List FieldSpec :=
  [("a", Option.none,
     .integer Option.none Option.none ⟨true, false, false, false⟩),
   ("b", Option.none,
     .integer Option.none Option.none ⟨true, false, false, false⟩)]

/-- One field, no primary-key flag. -/
def zeroPkFields : List FieldSpec :=
  [("a", Option.none, .integer Option.none Option.none defaultOpts)]

/-- A serialized-ready `users` row instance. -/
def uRow (k : Int) : Value :=
  Value.inst (some "id") [("id", Value.int k), ("name", Value.str "u")]

/-- Its `table_dict` serialization. -/
def uTd (k : Int) : TableRow :=
  [(PyKey.str "id", Value.int k), (PyKey.str "name", Value.str "u")]

/-- Five rows. -/
def fiveRows : List Value := [uRow 1, uRow 2, uRow 3, uRow 4, uRow 5]

/-! ### Specification-side definitions used by the refinement theorems -/

/-- The operator/field/join-path split stated by the spec, with the
guard the source actually applies: the final segment is consulted as an
operator only when the keyword contains the separator (at least two
segments); otherwise the whole keyword is the field name with operator
`exact`.  Earlier segments form the join path. -/
def parseKeySpec (key : String) : String × String × List String :=
  let parts := pySplit key "__"
  if 2 ≤ parts.length ∧ isOpName (parts.getLast?.getD "") then
    (parts.getLast?.getD "", parts.dropLast.getLast?.getD "",
      parts.dropLast.dropLast)
  else ("exact", parts.getLast?.getD "", parts.dropLast)

/-- The value normalisation stated by the spec: `contains`/`icontains`
wrap a string value in `%` wildcards exactly once (a non-string operand
is a `TypeError`); a model-instance value is replaced by its primary-key
value; every other value is passed through unchanged. -/
def transformValueSpec (op : String) (v : Value) : PyResult Value :=
  if op = "contains" ∨ op = "icontains" then
    match v with
    | .str s => .ok (.str ("%" ++ s ++ "%"))
    | _ => .error (.typeError "can only concatenate str to str")
  else
    match v with
    | .inst pkn vals => instPk (.inst pkn vals)
    | other => .ok other

/-- Fuel-indexed chunking: split a list into consecutive chunks of size
`bs` (remainder last).  The fuel only drives termination; any fuel at
least the list's length yields the canonical chunking. -/
def chunksFuel {α : Type} (bs : Nat) : Nat → List α → List (List α)
  | _, [] => []
  | 0, l => [l]
  | fuel + 1, l => l.take bs :: chunksFuel bs fuel (l.drop bs)

/-- The batch layout stated by the spec: consecutive chunks of
`batch_size` rows with one final short chunk for any remainder. -/
def specChunks {α : Type} (bs : Nat) (l : List α) : List (List α) :=
  chunksFuel bs l.length l

/-- Whether an exception is a validation error. -/
def PyErr.isValidation : PyErr → Bool
  | .validationError _ => true
  | _ => false

/-! ### Sanity examples for the Python-semantics helpers -/

example : pySplit "a__b" "__" = ["a", "b"] := by decide
example : pySplit "in" "__" = ["in"] := by decide
example : pySplit "author__name__contains" "__" =
    ["author", "name", "contains"] := by decide
example : pySplit "a__" "__" = ["a", ""] := by decide
example : pySplit "" "__" = [""] := by decide
example : jsonLoads "[1, 2]" = .ok (.arr [.int 1, .int 2]) := by rfl
example : jsonLoads "null" = .ok .none := by rfl
example : (jsonLoads "\x7b").isOk = false := by rfl
example : jsonLoads "\x7b\x22a\x22: [true, -3]\x7d" =
    .ok (.obj [("a", .arr [.bool true, .int (-3)])]) := by rfl

/-! ### C1 -/

/-- C1: the claim states `q.filter(**kwargs)` never mutates `q`'s
accumulated predicate list.  Evaluating the embedded `filter` at the
failing input shows otherwise: starting from `User.objects` (empty clause
list), one `filter(name="Tom")` call leaves the receiver holding one
clause, because the source binds `filter_clauses = self.filter_clauses`
without copying and appends to the shared list.  The join-path list is
copied (`list(self._select_related)`) and is indeed unchanged. -/
theorem c1_filter_mutates_receiver :
    (objectsOf userCls).filterClauses = [] ∧
    (objectsOf userCls).selRelated = [] ∧
    (qsFilter (objectsOf userCls) [("name", Value.str "Tom")]).map
        (fun p => (p.1.filterClauses.length, p.1.selRelated)) =
      .ok (1, []) := by
  exact ⟨rfl, rfl, rfl⟩

/-! ### C2 -/

/-- C2: `get()` executes the built SELECT with `.limit(2)`; an empty
result raises `NoMatch`, more than one row raises `MultipleMatches`, and
exactly one row is materialised through `from_row`; the two error kinds
are distinct. -/
theorem c2_get_limit2_trichotomy (qs : QuerySet)
    (f : SelectExpr → List Row) (e : SelectExpr)
    (h : buildSelectExpr qs Option.none = .ok e) :
    (qsGet qs f =
      match f (exprLimit e 2) with
      | [] => .error PyErr.noMatch
      | [r] => fromRow qs.modelCls r qs.selRelated
      | _ :: _ :: _ => .error PyErr.multipleMatches) ∧
    PyErr.noMatch ≠ PyErr.multipleMatches := by
  refine ⟨?_, by decide⟩
  have hq : qsGet qs f =
      (match f (exprLimit e 2) with
       | [] => .error PyErr.noMatch
       | r :: rest =>
         if rest.isEmpty then fromRow qs.modelCls r qs.selRelated
         else .error PyErr.multipleMatches) := by
    unfold qsGet
    rw [h]
  rw [hq]
  cases f (exprLimit e 2) with
  | nil => rfl
  | cons r rest => cases rest <;> rfl

/-- Witness for C2 at `User.objects`: an executor returning zero, one and
two rows produces `NoMatch`, the materialised instance, and
`MultipleMatches` respectively. -/
theorem c2_witness :
    qsGet (objectsOf userCls) (fun _ => []) = .error PyErr.noMatch ∧
    qsGet (objectsOf userCls) (fun _ => [userRowTom]) =
      .ok (Value.inst (some "id") [("id", Value.int 1), ("name", Value.str "Tom")]) ∧
    qsGet (objectsOf userCls) (fun _ => [userRowTom, userRowTom]) =
      .error PyErr.multipleMatches ∧
    PyErr.noMatch ≠ PyErr.multipleMatches := by
  refine ⟨?_, ?_, ?_, ?_⟩
  · exact (c2_get_limit2_trichotomy (objectsOf userCls) (fun _ => []) _ rfl).1
  · exact (c2_get_limit2_trichotomy (objectsOf userCls) (fun _ => [userRowTom]) _ rfl).1
  · exact (c2_get_limit2_trichotomy (objectsOf userCls)
      (fun _ => [userRowTom, userRowTom]) _ rfl).1
  · exact (c2_get_limit2_trichotomy (objectsOf userCls) (fun _ => []) _ rfl).2

/-! ### C3 -/

/-- C3 counterexample: the claim states a class declaration with zero or
with two primary-key flags fails with a configuration error at
declaration time.  `MetaModel.__new__` contains no such check: both
declarations succeed — with two flags the last one silently wins, with
none the `pk_name` attribute is simply never assigned. -/
theorem c3_counterexample :
    metaModelNew "t2" twoPkFields =
      .ok ⟨some "b", ⟨"t2", [⟨"a", true, false, false, false⟩,
        ⟨"b", true, false, false, false⟩]⟩⟩ ∧
    metaModelNew "t0" zeroPkFields =
      .ok ⟨Option.none, ⟨"t0", [⟨"a", false, false, false, false⟩]⟩⟩ :=
  ⟨rfl, rfl⟩

/-- Last-wins fold equals a reversed search. -/
theorem foldl_pk_lastwins (fields : List FieldSpec) (init : Option String) :
    fields.foldl
        (fun acc f => if (fty f).primaryKey then some (fname f) else acc)
        init =
      match fields.reverse.find? (fun f => (fty f).primaryKey) with
      | some f => some (fname f)
      | Option.none => init := by
  induction fields generalizing init with
  | nil => rfl
  | cons f rest ih =>
    simp only [List.foldl_cons, List.reverse_cons, List.find?_append, ih]
    cases hfind : rest.reverse.find? (fun f => (fty f).primaryKey) with
    | some g => simp [Option.or]
    | none =>
      simp only [Option.or, Option.none_or]
      by_cases hp : (fty f).primaryKey <;> simp [List.find?, hp]

/-- C3 amended: declaring a model class never fails on primary-key
arity; `Mapping.pk_name` records the last field flagged primary-key (and
stays unset when there is none), and one column per field is produced in
declaration order. -/
theorem c3_amended (tableName : String) (fields : List FieldSpec) :
    metaModelNew tableName fields =
      .ok ⟨(fields.reverse.find? (fun f => (fty f).primaryKey)).map fname,
        ⟨tableName, fields.map (fun f => getColumn (fname f) (fty f))⟩⟩ := by
  unfold metaModelNew
  rw [foldl_pk_lastwins]
  cases fields.reverse.find? (fun f => (fty f).primaryKey) <;> rfl

/-! ### C4 -/

/-- C4: the claim states a `None` primary-key value is omitted from the
executed INSERT's value set.  Evaluating `create(name="Tom")` on `User`
(whose `id` defaults to `None`) shows the INSERT values still contain
`id = None`: the `# pop id if None` guard looks up the SQLAlchemy
`Column` object in the string-keyed `table_dict` result, never finds it,
and therefore never pops.  The store-returned identifier is assigned onto
the instance and the instance is returned, so the remaining two parts of
the claim do hold. -/
theorem c4_create_keeps_null_pk :
    qsCreate (objectsOf userCls) [("name", Value.str "Tom")]
        (some (Value.int 1)) =
      .ok ([(PyKey.str "id", Value.none), (PyKey.str "name", Value.str "Tom")],
        Value.inst (some "id") [("id", Value.int 1), ("name", Value.str "Tom")]) := by
  rfl

/-! ### C5 -/

/-- C5 counterexample: the claim states join paths sharing a prefix reuse
the same join, so each intermediate table is joined exactly once.  With
select-related `["x__y", "x__z"]` over root `ta` the built expression
joins `tx` twice — once per path — because `build_select_expression`
restarts the walk at `self.model_cls` for every item and appends a join
for every segment unconditionally. -/
theorem c5_counterexample :
    (buildSelectExpr qsShared Option.none).map SelectExpr.fromTables =
      .ok ["ta", "tx", "ty", "tx", "tz"] ∧
    ["ta", "tx", "ty", "tx", "tz"].count "tx" = 2 := by
  exact ⟨rfl, by decide⟩

/-- Mapping over an `Except` yields an error exactly from an error. -/
theorem exceptMap_eq_error {α β : Type} (g : α → β) (x : PyResult α)
    (e : PyErr) (h : x.map g = .error e) : x = .error e := by
  cases x with
  | error e' => simpa [Except.map] using h
  | ok a => simp [Except.map] at h

/-- Mapping over an `Except` yields a value exactly from a value. -/
theorem exceptMap_eq_ok {α β : Type} (g : α → β) (x : PyResult α) (b : β)
    (h : x.map g = .ok b) : ∃ a, x = .ok a ∧ g a = b := by
  cases x with
  | error e => simp [Except.map] at h
  | ok a => exact ⟨a, rfl, by simpa [Except.map] using h⟩

/-- The inner walk of `build_select_expression` appends exactly the
tables `pathTables` computes for the path. -/
theorem buildItemGo_eq_pathTables (cur : ModelCls) (parts : List String) :
    ∀ tables, (buildItemGo cur parts tables).map (fun r => r.2) =
      (pathTables cur parts).map (fun ts => tables ++ ts) := by
  induction parts generalizing cur with
  | nil => intro tables; simp [buildItemGo, pathTables, Except.map]
  | cons part rest ih =>
    intro tables
    unfold buildItemGo pathTables
    cases findField cur part with
    | none => rfl
    | some f =>
      dsimp only
      cases (fty f).to with
      | none => rfl
      | some sub =>
        dsimp only
        rw [ih sub]
        cases pathTables sub rest with
        | error e => rfl
        | ok tail =>
          show Except.ok ((tables ++ [(mappingOf sub).table.name]) ++ tail) = _
          rw [List.append_assoc]
          rfl

/-- The outer loop of `build_select_expression` concatenates each item's
walked tables onto the accumulator, aborting at the first failure. -/
theorem buildTablesGo_eq_flatten (root : ModelCls) (items : List String) :
    ∀ tables, buildTablesGo root items tables =
      (pyMapM (fun item => pathTables root (pySplit item "__")) items).map
        (fun ls => tables ++ ls.flatten) := by
  induction items with
  | nil => intro tables; simp [buildTablesGo, pyMapM, Except.map]
  | cons item rest ih =>
    intro tables
    unfold buildTablesGo pyMapM
    have hitem := buildItemGo_eq_pathTables root (pySplit item "__") tables
    cases hp : pathTables root (pySplit item "__") with
    | error e =>
      rw [hp] at hitem
      have hb : buildItemGo root (pySplit item "__") tables = .error e :=
        exceptMap_eq_error _ _ _ hitem
      rw [hb]
      rfl
    | ok ts =>
      rw [hp] at hitem
      obtain ⟨r, hb, hr2⟩ := exceptMap_eq_ok _ _ _ hitem
      have hr2' : r.2 = tables ++ ts := hr2
      rw [hb]
      change buildTablesGo root rest r.2 = _
      rw [ih r.2, hr2']
      cases pyMapM (fun item => pathTables root (pySplit item "__")) rest with
      | error e => rfl
      | ok ls =>
        show Except.ok ((tables ++ ts) ++ ls.flatten) = _
        rw [List.append_assoc]
        rfl

/-- C5 amended: the join sequence of the built SELECT is the root table
followed by the concatenation of the tables each join path walks on its
own; a table reached through several paths (for example via a shared
prefix) is joined once per path, not reused across paths. -/
theorem c5_amended (qs : QuerySet) (functions : Option (List String)) :
    (buildSelectExpr qs functions).map SelectExpr.fromTables =
      (pyMapM (fun item => pathTables qs.modelCls (pySplit item "__"))
          qs.selRelated).map
        (fun ls => (mappingOf qs.modelCls).table.name :: ls.flatten) := by
  unfold buildSelectExpr
  rw [buildTablesGo_eq_flatten]
  cases pyMapM (fun item => pathTables qs.modelCls (pySplit item "__"))
      qs.selRelated with
  | error e => rfl
  | ok ls => rfl

/-! ### C6 -/

/-- C6 counterexample: the claim states that whenever the final
`__`-split segment names a known operator it becomes the operator.  For
the separator-free keyword `"in"` the final (only) segment `"in"` is a
known operator, yet the source takes the `"__" in key` false branch and
parses it as the column name with the default `exact` operator. -/
theorem c6_counterexample :
    isOpName "in" = true ∧ pySplit "in" "__" = ["in"] ∧
    parseKey "in" = ("exact", "in", []) ∧ "exact" ≠ "in" := by
  refine ⟨rfl, by decide, rfl, by decide⟩

/-- `splitKeyParts` agrees with the spec-side split on every segment
list. -/
theorem splitKeyParts_eq_spec (parts : List String) :
    splitKeyParts parts =
      if 2 ≤ parts.length ∧ isOpName (parts.getLast?.getD "") then
        (parts.getLast?.getD "", parts.dropLast.getLast?.getD "",
          parts.dropLast.dropLast)
      else ("exact", parts.getLast?.getD "", parts.dropLast) := by
  have hrev : parts = parts.reverse.reverse := (List.reverse_reverse parts).symm
  rw [hrev]
  cases hr : parts.reverse with
  | nil => rfl
  | cons a tl =>
    cases tl with
    | nil => rfl
    | cons b rest =>
      unfold splitKeyParts
      rw [List.reverse_reverse]
      have hlast : (a :: b :: rest).reverse.getLast?.getD "" = a := by
        rw [List.getLast?_reverse]; rfl
      have hdrop : (a :: b :: rest).reverse.dropLast = (b :: rest).reverse := by
        rw [List.dropLast_reverse]; rfl
      have hlast2 : (b :: rest).reverse.getLast?.getD "" = b := by
        rw [List.getLast?_reverse]; rfl
      have hdrop2 : (b :: rest).reverse.dropLast = rest.reverse := by
        rw [List.dropLast_reverse]; rfl
      have hlen : 2 ≤ (a :: b :: rest).reverse.length := by
        rw [List.length_reverse]; simp
      rw [hlast, hdrop, hlast2, hdrop2]
      by_cases hop : isOpName a = true
      · simp [hlen, hop]
      · simp [hlen, hop]

/-- C6 amended: the parser splits the keyword on `__`; when the keyword
contains the separator and its final segment names a known operator, that
segment is the operator and the preceding segment the field name;
otherwise (including every separator-free keyword) the operator is
`exact` and the last segment — the whole keyword when no separator — is
the field name; all earlier segments form the join path.  Value
normalisation is exactly the spec's: `%` wildcards wrapped exactly once
for `contains`/`icontains`, model instances replaced by their primary
key. -/
theorem c6_amended :
    (∀ key, parseKey key = parseKeySpec key) ∧
    (∀ op v, transformValue op v = transformValueSpec op v) := by
  constructor
  · intro key
    unfold parseKey parseKeySpec
    exact splitKeyParts_eq_spec (pySplit key "__")
  · intro op v
    unfold transformValue transformValueSpec wrapPercent
    by_cases hop : op = "contains" ∨ op = "icontains"
    · simp only [hop, if_true, if_pos]
      cases v <;> rfl
    · simp only [hop, if_false, if_neg]
      cases v <;> rfl

/-! ### C7 -/

/-- Any two sufficient fuels give the same chunking. -/
theorem chunksFuel_congr {α : Type} (bs : Nat) (hbs : 0 < bs) :
    ∀ f1 f2 (l : List α), l.length ≤ f1 → l.length ≤ f2 →
      chunksFuel bs f1 l = chunksFuel bs f2 l := by
  intro f1
  induction f1 with
  | zero =>
    intro f2 l h1 _
    have : l = [] := List.eq_nil_of_length_eq_zero (Nat.le_zero.mp h1)
    subst this
    cases f2 <;> rfl
  | succ f1 ih =>
    intro f2 l h1 h2
    cases l with
    | nil => cases f2 <;> rfl
    | cons a l' =>
      cases f2 with
      | zero => simp at h2
      | succ f2' =>
        simp only [List.length_cons] at h1 h2
        show (a :: l').take bs :: chunksFuel bs f1 ((a :: l').drop bs) =
          (a :: l').take bs :: chunksFuel bs f2' ((a :: l').drop bs)
        congr 1
        apply ih f2'
        · simp only [List.length_drop, List.length_cons]
          omega
        · simp only [List.length_drop, List.length_cons]
          omega

/-- Unfolding equation for `specChunks` on a nonempty list. -/
theorem specChunks_cons {α : Type} (bs : Nat) (hbs : 0 < bs) (a : α)
    (l : List α) :
    specChunks bs (a :: l) =
      (a :: l).take bs :: specChunks bs ((a :: l).drop bs) := by
  unfold specChunks
  show (a :: l).take bs :: chunksFuel bs l.length ((a :: l).drop bs) = _
  congr 1
  apply chunksFuel_congr bs hbs
  · simp only [List.length_drop, List.length_cons]
    omega
  · exact Nat.le_refl _

/-- Unfolding equation for `specChunks` on any nonempty list. -/
theorem specChunks_ne_nil {α : Type} (bs : Nat) (hbs : 0 < bs)
    {l : List α} (hl : l ≠ []) :
    specChunks bs l = l.take bs :: specChunks bs (l.drop bs) := by
  cases l with
  | nil => exact absurd rfl hl
  | cons a l' => exact specChunks_cons bs hbs a l'

/-- The row loop of `insert_many` produces exactly the spec's batch
layout: starting from a partial batch `values` shorter than
`batch_size`, the trace it appends is the chunking of `values` followed
by the serialized remaining rows. -/
theorem insGo_spec (bs : Nat) (hbs : 0 < bs) (rows : List Value) :
    ∀ (values : List TableRow) (trace : List (List TableRow))
      (ds : List TableRow), values.length < bs →
      pyMapM tableDict rows = .ok ds →
      insGo bs rows values trace =
        .ok (trace ++ specChunks bs (values ++ ds), PyNone.none) := by
  induction rows with
  | nil =>
    intro values trace ds hlt h
    have hds : [] = ds := Except.ok.inj h
    subst hds
    cases values with
    | nil => simp [insGo, specChunks, chunksFuel]
    | cons a vs =>
      have h1 : (a :: vs).take bs = a :: vs :=
        List.take_of_length_le (Nat.le_of_lt hlt)
      have h2 : (a :: vs).drop bs = [] :=
        List.drop_eq_nil_of_le (Nat.le_of_lt hlt)
      rw [show ((a :: vs) ++ [] : List TableRow) = a :: vs from by simp,
        specChunks_cons bs hbs, h1, h2]
      simp [insGo, specChunks, chunksFuel]
  | cons r rest ih =>
    intro values trace ds hlt h
    unfold pyMapM at h
    cases htd : tableDict r with
    | error e => rw [htd] at h; exact Except.noConfusion h
    | ok d =>
      rw [htd] at h
      cases hrest : pyMapM tableDict rest with
      | error e => rw [hrest] at h; exact Except.noConfusion h
      | ok ds' =>
        rw [hrest] at h
        have hds : d :: ds' = ds := Except.ok.inj h
        subst hds
        unfold insGo
        rw [htd]
        show (if (values ++ [d]).length = bs then
            insGo bs rest [] (trace ++ [values ++ [d]])
          else insGo bs rest (values ++ [d]) trace) = _
        by_cases hlen : (values ++ [d]).length = bs
        · rw [if_pos hlen, ih [] (trace ++ [values ++ [d]]) ds' hbs hrest]
          have hne : values ++ d :: ds' = (values ++ [d]) ++ ds' := by
            rw [List.append_assoc]
            rfl
          have hnn : (values ++ [d]) ++ ds' ≠ [] := by
            intro hc
            have hlc := congrArg List.length hc
            simp only [List.length_append, List.length_cons,
              List.length_singleton, List.length_nil] at hlc
            omega
          rw [hne, specChunks_ne_nil bs hbs hnn,
            List.take_left' hlen, List.drop_left' hlen]
          simp
        · rw [if_neg hlen]
          have hlt' : (values ++ [d]).length < bs := by
            simp only [List.length_append, List.length_singleton] at hlen ⊢
            omega
          rw [ih (values ++ [d]) trace ds' hlt' hrest]
          have : (values ++ [d]) ++ ds' = values ++ d :: ds' := by simp
          rw [this]

/-- C7: for a positive `batch_size`, `insert_many` issues exactly the
batched inserts of the spec's layout — one `execute_many` call each time
the accumulated batch reaches `batch_size` plus one for a non-empty
remainder, each carrying the serialized rows in order — and returns
`None`, no inserted identifiers. -/
theorem c7_insert_many_batches (rows : List Value) (batchSize : Nat)
    (ds : List TableRow) (hbs : 0 < batchSize)
    (h : pyMapM tableDict rows = .ok ds) :
    insertMany rows batchSize = .ok (specChunks batchSize ds, PyNone.none) := by
  unfold insertMany
  have hmain := insGo_spec batchSize hbs rows [] [] ds hbs h
  simpa using hmain

/-- Witness for C7: five rows with `batch_size = 2` issue exactly three
physical batch operations of sizes 2, 2 and 1, and the call returns
`None`. -/
theorem c7_witness :
    insertMany fiveRows 2 =
      .ok ([[uTd 1, uTd 2], [uTd 3, uTd 4], [uTd 5]], PyNone.none) ∧
    [[uTd 1, uTd 2], [uTd 3, uTd 4], [uTd 5]].map List.length = [2, 2, 1] := by
  constructor
  · have h := c7_insert_many_batches fiveRows 2
      [uTd 1, uTd 2, uTd 3, uTd 4, uTd 5] (by decide) rfl
    exact h.trans (by rfl)
  · rfl

/-! ### C8 -/

/-- C8: for a model whose primary key is named `id`, constructing with
`pk=` and with `id=` is interchangeable (the constructor renames the
`pk` kwarg to the primary-key field before validation, so the whole
results coincide, hence so do the `.pk` reads), and the `pk` accessor
resolves reads and writes to the `id` field. -/
theorem c8_pk_alias (cls : ModelCls) (v : Value)
    (vals : List (String × Value)) (x : Value)
    (h : pkNameOf cls = some "id") :
    modelInit cls [("pk", v)] = modelInit cls [("id", v)] ∧
    (modelInit cls [("pk", v)]).bind instPk =
      (modelInit cls [("id", v)]).bind instPk ∧
    instPk (Value.inst (some "id") vals) =
      instGetattr (Value.inst (some "id") vals) "id" ∧
    instSetattr (Value.inst (some "id") vals) "pk" x =
      .ok (Value.inst (some "id") (setKey vals "id" x)) := by
  have h1 : modelInit cls [("pk", v)] = modelInit cls [("id", v)] := by
    unfold modelInit
    rw [h]
    rfl
  exact ⟨h1, by rw [h1], rfl, rfl⟩

/-- Witness for C8 on the `User` fixture. -/
theorem c8_witness :
    modelInit userCls [("pk", Value.int 5)] =
      modelInit userCls [("id", Value.int 5)] ∧
    instPk (Value.inst (some "id") [("id", Value.int 5)]) =
      .ok (Value.int 5) ∧
    instSetattr
        (Value.inst (some "id") [("id", Value.int 3), ("name", Value.str "t")])
        "pk" (Value.int 7) =
      .ok (Value.inst (some "id")
        [("id", Value.int 7), ("name", Value.str "t")]) := by
  refine ⟨(c8_pk_alias userCls (Value.int 5) [] (Value.int 0) rfl).1, ?_, ?_⟩
  · have hread := (c8_pk_alias userCls (Value.int 5)
      [("id", Value.int 5)] (Value.int 0) rfl).2.2.1
    rw [hread]
    rfl
  · have hwrite := (c8_pk_alias userCls (Value.int 5)
      [("id", Value.int 3), ("name", Value.str "t")] (Value.int 7) rfl).2.2.2
    rw [hwrite]
    rfl

/-! ### C9 -/

/-- C9: JSON field validation does accept a pre-decoded structure as-is
and does decode strings, but when decoding fails the claimed validation
error (`JsonError` vs `JsonTypeError`) is never raised: the handler's
`errors` name is unbound in `fields.py`, so the failure surfaces as
`NameError('errors')`, which is not a validation error at all. -/
theorem c9_json_decode_failure_is_name_error :
    jsonValidate (Value.str "\x7b") = .error (PyErr.nameError "errors") ∧
    jsonValidate (Value.str "[1, 2]") =
      .ok (Value.arr [Value.int 1, Value.int 2]) ∧
    jsonValidate (Value.obj [("a", Value.int 1)]) =
      .ok (Value.obj [("a", Value.int 1)]) ∧
    PyErr.isValidation (PyErr.nameError "errors") = false :=
  ⟨rfl, rfl, rfl, rfl⟩

/-! ### C10 -/

/-- The only uncaught exception a field validator can raise is the
`NameError` escaping `Json.validate`. -/
theorem validateField_error_name (t : FieldTy) (v : Value) (e : PyErr)
    (h : validateField t v = .error e) : e = PyErr.nameError "errors" := by
  cases t with
  | integer ge le o => exact absurd h (by simp [validateField])
  | stringF a b o => exact absurd h (by simp [validateField])
  | boolean o => exact absurd h (by simp [validateField])
  | foreignKey a b c => exact absurd h (by simp [validateField])
  | jsonF o =>
    unfold validateField jsonValidate at h
    cases v with
    | str s =>
      dsimp only at h
      cases hj : jsonLoads s with
      | ok d => rw [hj] at h; exact Except.noConfusion h
      | error msg => rw [hj] at h; exact (Except.error.inj h).symm
    | none => exact Except.noConfusion h
    | bool b => exact Except.noConfusion h
    | int n => exact Except.noConfusion h
    | arr l => exact Except.noConfusion h
    | obj l => exact Except.noConfusion h
    | inst p vs => exact Except.noConfusion h

/-- The field loop of the validation engine only raises the uncaught
`NameError`; caught constraint violations are accumulated, not raised. -/
theorem validateFieldsGo_error_name (data : List (String × Value)) :
    ∀ (fields : List FieldSpec) (vals : List (String × Value))
      (errs : List (String × String)) (e : PyErr),
      validateFieldsGo data fields vals errs = .error e →
      e = PyErr.nameError "errors" := by
  intro fields
  induction fields with
  | nil =>
    intro vals errs e h
    exact absurd h (by simp [validateFieldsGo])
  | cons f rest ih =>
    intro vals errs e h
    unfold validateFieldsGo at h
    cases hl : lookupStr data (fname f) with
    | none =>
      rw [hl] at h
      cases hd : fdefault f with
      | some d => rw [hd] at h; exact ih _ _ _ h
      | none => rw [hd] at h; exact ih _ _ _ h
    | some v =>
      rw [hl] at h
      dsimp only at h
      by_cases hnv : isNoneValue v = true
      · rw [if_pos hnv] at h
        by_cases han : allowsNone f = true
        · rw [if_pos han] at h
          exact ih _ _ _ h
        · rw [if_neg han] at h
          exact ih _ _ _ h
      · rw [if_neg hnv] at h
        cases hv : validateField (fty f) v with
        | error e' =>
          rw [hv] at h
          have h' := Except.error.inj h
          rw [← h']
          exact validateField_error_name _ _ _ hv
        | ok r =>
          rw [hv] at h
          cases r with
          | error msg => exact ih _ _ _ h
          | ok v' => exact ih _ _ _ h

/-- With `raise_exc = False` the validation engine never raises a
validation error: collected constraint violations are returned, and the
only escaping exception is the uncaught `NameError`. -/
theorem validateModel_noraise_error (cls : ModelCls)
    (data : List (String × Value)) (e : PyErr)
    (h : validateModel cls data false = .error e) :
    e = PyErr.nameError "errors" := by
  unfold validateModel at h
  cases hg : validateFieldsGo data cls.fields [] [] with
  | error e' =>
    rw [hg] at h
    have h' := Except.error.inj h
    rw [← h']
    exact validateFieldsGo_error_name data cls.fields [] [] e' hg
  | ok p =>
    rw [hg] at h
    obtain ⟨vals, errs⟩ := p
    dsimp only at h
    rw [if_neg (by simp)] at h
    exact Except.noConfusion h

/-- C10: constructing any model with the internal `__pk_only__=True`
flag (as `from_row` does for foreign-key columns outside
`select_related`) never raises a validation error, whatever else the
data is missing or violating: `__init__` passes
`raise_exc = not pk_only` to the validation engine, so collected
per-field errors are suppressed and the partially populated stub is
returned.  The side condition records pydantic's rule that no declared
field — in particular not the primary key — can be named
`__pk_only__` (underscore-prefixed class attributes never become
fields). -/
theorem c10_pk_only_no_validation_error (cls : ModelCls)
    (data : List (String × Value)) (e : PyErr)
    (hpk : pkNameOf cls ≠ some "__pk_only__")
    (h : modelInit cls (("__pk_only__", Value.bool true) :: data) = .error e) :
    e.isValidation = false := by
  unfold modelInit at h
  cases hlp : lookupStr (("__pk_only__", Value.bool true) :: data) "pk" with
  | none =>
    rw [hlp] at h
    have h2 : Except.bind (validateModel cls
        (removeKey (("__pk_only__", Value.bool true) :: data) "__pk_only__")
        false)
        (fun r => Except.ok (Value.inst (pkNameOf cls) r.1)) =
        Except.error e := h
    cases hv : validateModel cls
        (removeKey (("__pk_only__", Value.bool true) :: data) "__pk_only__")
        false with
    | error e' =>
      rw [hv] at h2
      have h' := Except.error.inj h2
      rw [← h', validateModel_noraise_error _ _ _ hv]
      rfl
    | ok p =>
      rw [hv] at h2
      exact Except.noConfusion h2
  | some v =>
    rw [hlp] at h
    cases hpn : pkNameOf cls with
    | none =>
      rw [hpn] at h
      have h2 : Except.error (PyErr.attributeError "pk_name") =
          Except.error e := h
      rw [← Except.error.inj h2]
      rfl
    | some pkn =>
      rw [hpn] at h
      have hne : ¬("__pk_only__" = pkn) := by
        intro hc
        exact hpk (hpn.trans (by rw [← hc]))
      have hset : setKey (removeKey (("__pk_only__", Value.bool true) :: data)
          "pk") pkn v =
          ("__pk_only__", Value.bool true) ::
            setKey (removeKey data "pk") pkn v := by
        simp only [removeKey]
        rw [if_neg (by decide)]
        simp only [setKey]
        rw [if_neg hne]
      have h1 : Except.bind (validateModel cls
          (removeKey (setKey
            (removeKey (("__pk_only__", Value.bool true) :: data) "pk") pkn v)
            "__pk_only__")
          (!(Option.map pyTruthy (lookupStr (setKey
            (removeKey (("__pk_only__", Value.bool true) :: data) "pk") pkn v)
            "__pk_only__")).getD false))
          (fun r => Except.ok (Value.inst (some pkn) r.1)) =
          Except.error e := h
      rw [hset] at h1
      have h2 : Except.bind (validateModel cls
          (removeKey (("__pk_only__", Value.bool true) ::
            setKey (removeKey data "pk") pkn v) "__pk_only__") false)
          (fun r => Except.ok (Value.inst (some pkn) r.1)) =
          Except.error e := h1
      cases hv : validateModel cls
          (removeKey (("__pk_only__", Value.bool true) ::
            setKey (removeKey data "pk") pkn v) "__pk_only__") false with
      | error e' =>
        rw [hv] at h2
        have h' := Except.error.inj h2
        rw [← h', validateModel_noraise_error _ _ _ hv]
        rfl
      | ok p =>
        rw [hv] at h2
        exact Except.noConfusion h2

/-- Witness for C10: a model with a JSON field fed a malformed JSON
string under `__pk_only__=True` does raise — but a `NameError`, not a
validation error — while a required-field-violating `__pk_only__`
construction (the `from_row` foreign-key stub) succeeds with the partial
instance. -/
theorem c10_witness :
    PyErr.isValidation (PyErr.nameError "errors") = false ∧
    modelInit jsonCls
        [("__pk_only__", Value.bool true), ("payload", Value.str "\x7b")] =
      .error (PyErr.nameError "errors") ∧
    modelInit userCls [("__pk_only__", Value.bool true), ("pk", Value.int 9)] =
      .ok (Value.inst (some "id") [("id", Value.int 9)]) := by
  refine ⟨?_, rfl, rfl⟩
  exact c10_pk_only_no_validation_error jsonCls
    [("payload", Value.str "\x7b")] (PyErr.nameError "errors")
    (by decide) rfl

end Ormantic
